import Mathlib

/-!
Verification of the coding-agent core: the safety scanner (`is_code_safe`),
the sandboxed executor's outcome classification (`execute_code`), the
embedded test harness (`run_tests`), and the bounded attempt memory
(`ShortTermMemory`).

Python text values are modelled as `List Char`; Python `int` as `Int`
(or `Nat` where the value is a length); Python `None`-able fields as
`Option`.  The dynamic parts that cross the process boundary (the
subprocess run, the `exec` of candidate code, the wall clock) are
modelled as explicit inputs describing their outcome, so every function
of the repository becomes a pure Lean function of the program text and
of those outcomes.
-/

namespace CodingAgent

/-! ## String helpers (Python `in`, `split`, `strip`) -/

/-- Python prefix test: `startsWith p s` holds when `p` is an initial
segment of `s`. -/
def startsWith : List Char → List Char → Bool
  | [], _ => true
  | _ :: _, [] => false
  | p :: ps, c :: cs => p == c && startsWith ps cs

/-- Python substring containment (`pat in code`): `pat` occurs contiguously
in `s`. -/
def hasSub (pat : List Char) : List Char → Bool
  | [] => pat.isEmpty
  | c :: cs => startsWith pat (c :: cs) || hasSub pat cs

theorem startsWith_iff (p s : List Char) : startsWith p s = true ↔ p <+: s := by
  induction p generalizing s with
  | nil => simp [startsWith]
  | cons a as ih =>
    cases s with
    | nil => simp [startsWith]
    | cons c cs =>
      simp only [startsWith, Bool.and_eq_true, beq_iff_eq, ih]
      constructor
      · rintro ⟨rfl, t, rfl⟩
        exact ⟨t, rfl⟩
      · rintro ⟨t, ht⟩
        cases ht
        exact ⟨rfl, t, rfl⟩

theorem hasSub_iff (pat s : List Char) : hasSub pat s = true ↔ pat <:+: s := by
  induction s with
  | nil =>
    simp only [hasSub, List.isEmpty_iff]
    constructor
    · rintro rfl; exact List.infix_rfl
    · intro h; simpa using h.length_le
  | cons c cs ih =>
    simp only [hasSub, Bool.or_eq_true, startsWith_iff, ih, List.infix_cons_iff]

/-- Lemma: `hasSub` transported along an append on the right. -/
theorem hasSub_append_left {pat s : List Char} (t : List Char)
    (h : hasSub pat s = true) : hasSub pat (s ++ t) = true := by
  rw [hasSub_iff] at h ⊢
  obtain ⟨u, v, rfl⟩ := h
  exact ⟨u, v ++ t, by simp⟩

/-- First line of a text, Python `s.split('\n')[0]`. -/
def firstLine (s : List Char) : List Char := s.takeWhile (fun c => c != '\n')

/-- Python `s.split('\n')`. -/
def splitLines : List Char → List (List Char)
  | [] => [[]]
  | c :: cs =>
    if c = '\n' then [] :: splitLines cs
    else
      match splitLines cs with
      | [] => [[c]]
      | l :: ls => (c :: l) :: ls

/-- Python whitespace as removed by `str.strip()`. -/
def isPySpace (c : Char) : Bool :=
  c == ' ' || c == '\t' || c == '\n' || c == '\r' || c == '\x0b' || c == '\x0c'

/-- Python `str.strip()`. -/
def pyStrip (s : List Char) : List Char :=
  ((s.dropWhile isPySpace).reverse.dropWhile isPySpace).reverse

/-! ## SafetyScanner (`executor.is_code_safe`) -/

/-- The fixed, ordered blocklist of `(pattern, reason)` pairs from
`executor.is_code_safe`. -/
def dangerous_patterns : List (List Char × List Char) :=
  [ ("import shutil".toList, "filesystem manipulation".toList),
    ("rmdir".toList, "directory deletion".toList),
    ("os.remove".toList, "file deletion".toList),
    ("os.unlink".toList, "file deletion".toList),
    ("subprocess".toList, "subprocess spawning".toList),
    ("__import__".toList, "dynamic imports".toList),
    ("eval(".toList, "dynamic code evaluation".toList),
    ("exec(".toList, "dynamic code execution".toList),
    ("open(".toList, "file system access".toList),
    ("socket".toList, "network access".toList),
    ("requests".toList, "network access".toList),
    ("urllib".toList, "network access".toList),
    ("http.client".toList, "network access".toList) ]

/-- The apostrophe character used in the blocked message. -/
def quoteChar : Char := Char.ofNat 39

/-- The message returned when a pattern matches:
`Blocked: code contains <pattern> (<reason>)` with the pattern quoted. -/
def blockedMessage (pat reason : List Char) : List Char :=
  "Blocked: code contains ".toList ++ [quoteChar] ++ pat ++ [quoteChar]
    ++ " (".toList ++ reason ++ ")".toList

/-- Model of `executor.is_code_safe`: scan the blocklist in order, returning on the
first pattern contained in the code; `(True, ...)` when none matches. -/
def is_code_safe (code : List Char) : Bool × List Char :=
  match dangerous_patterns.find? (fun pr => hasSub pr.1 code) with
  | some (pat, reason) => (false, blockedMessage pat reason)
  | none => (true, "Code passed safety check".toList)

/-! ## Attempt memory data model (`memory.py`) -/

/-- One entry of `test_results['failures']` as built by
`agent.parse_test_results`: `{test_name, message}`. -/
structure FailureInfo where
  test_name : List Char
  message : List Char
deriving DecidableEq

/-- The `test_results` dict stored on an `Attempt`
(`{total_tests, passed, failed, failures}`, from `agent.parse_test_results`). -/
structure TestResultsSummary where
  total_tests : Int
  passed : Int
  failed : Int
  failures : List FailureInfo
deriving DecidableEq

/-- Model of `memory.Attempt`: one attempt record.  `timestamp = []` plays the role
of the empty string that `__post_init__` replaces with the current time. -/
structure Attempt where
  iteration : Int
  code : List Char
  success : Bool
  output : List Char
  error : List Char
  test_results : Option TestResultsSummary := none
  timestamp : List Char := []
deriving DecidableEq

/-- Model of `memory.Attempt.__post_init__`: an empty timestamp is replaced by the
current time (`now`). -/
def applyPostInit (now : List Char) (a : Attempt) : Attempt :=
  if a.timestamp = [] then { a with timestamp := now } else a

/-- Model of `memory.ShortTermMemory`: bounded attempt history, oldest first. -/
structure ShortTermMemory where
  max_size : Nat
  attempts : List Attempt
deriving DecidableEq

/-- Model of `ShortTermMemory.__init__`: fresh memory with no attempts. -/
def ShortTermMemory.init (maxSize : Nat) : ShortTermMemory :=
  { max_size := maxSize, attempts := [] }

/-- Model of `ShortTermMemory.add`: append, then drop the oldest entry when the
capacity is exceeded (`self.attempts.pop(0)`). -/
def ShortTermMemory.add (m : ShortTermMemory) (a : Attempt) : ShortTermMemory :=
  let appended := m.attempts ++ [a]
  if m.max_size < appended.length then
    { m with attempts := appended.drop 1 }
  else
    { m with attempts := appended }

/-- A whole sequence of `add` calls. -/
def addAll (m : ShortTermMemory) (l : List Attempt) : ShortTermMemory :=
  l.foldl ShortTermMemory.add m

/-- Python slicing `xs[-n:]`: the last `n` elements for `n ≥ 1`, and the
whole list for `n = 0` (since `-0` is `0`). -/
def sliceLast (xs : List Attempt) (n : Nat) : List Attempt :=
  if n = 0 then xs else xs.drop (xs.length - n)

/-- Model of `ShortTermMemory.get_all`: a copy of the attempt list. -/
def ShortTermMemory.get_all (m : ShortTermMemory) : List Attempt :=
  m.attempts

/-- Model of `ShortTermMemory.get_recent`: `self.attempts[-n:]` when `n` does not
exceed the stored length, otherwise a copy of the whole list. -/
def ShortTermMemory.get_recent (m : ShortTermMemory) (n : Nat) : List Attempt :=
  if n ≤ m.attempts.length then sliceLast m.attempts n else m.attempts

/-- Model of `ShortTermMemory.has_pattern`: tail-of-history pattern detection. -/
def ShortTermMemory.has_pattern (m : ShortTermMemory) (pattern_type : String) : Bool :=
  if pattern_type = "same_error" ∧ 2 ≤ m.attempts.length then
    match m.attempts.drop (m.attempts.length - 2) with
    | [a1, a2] =>
      if !a1.success && !a2.success then
        firstLine a1.error == firstLine a2.error
      else false
    | _ => false
  else if pattern_type = "same_test_failure" ∧ 2 ≤ m.attempts.length then
    match m.attempts.drop (m.attempts.length - 2) with
    | [a1, a2] =>
      match a1.test_results, a2.test_results with
      | some t1, some t2 =>
        let failures1 := t1.failures.map (fun f => f.test_name)
        let failures2 := t2.failures.map (fun f => f.test_name)
        failures1.any (fun n => failures2.contains n)
      | _, _ => false
    | _ => false
  else if pattern_type = "no_progress" ∧ 3 ≤ m.attempts.length then
    (m.attempts.drop (m.attempts.length - 3)).all (fun a =>
      !a.success &&
      !(match a.test_results with
        | some tr => decide (0 < tr.passed)
        | none => false))
  else
    false

/-- The `passed` count read off an attempt's test results
(`a.test_results.get('passed', 0)`). -/
def passedCount (a : Attempt) : Int :=
  match a.test_results with
  | some tr => tr.passed
  | none => 0

/-- Model of `ShortTermMemory._calculate_progress`: classification of the last
(up to) three attempts.  Python's `sorted` is modelled by
`List.insertionSort`. -/
def ShortTermMemory.calculate_progress (m : ShortTermMemory) : List Char :=
  if m.attempts.length < 2 then "insufficient_data".toList
  else
    let recent :=
      if 3 ≤ m.attempts.length then m.attempts.drop (m.attempts.length - 3)
      else m.attempts
    let fallback :=
      let has_execution_error := recent.any (fun a => !a.test_results.isSome && !a.success)
      let has_test_failures := recent.any (fun a => a.test_results.isSome && !a.success)
      if has_execution_error && has_test_failures then "mixed".toList
      else "stable".toList
    if recent.all (fun a => a.test_results.isSome) then
      let passed_counts := recent.map passedCount
      if passed_counts = List.insertionSort (· ≤ ·) passed_counts then "improving".toList
      else if passed_counts = (List.insertionSort (· ≤ ·) passed_counts).reverse then
        "regressing".toList
      else fallback
    else fallback

/-- A non-decreasing sequence of counts (the spec's wording for
`improving`). -/
def nonDecreasing : List Int → Bool
  | [] => true
  | [_] => true
  | a :: b :: rest => decide (a ≤ b) && nonDecreasing (b :: rest)

/-- A non-increasing sequence of counts (the spec's wording for
`regressing`). -/
def nonIncreasing : List Int → Bool
  | [] => true
  | [_] => true
  | a :: b :: rest => decide (b ≤ a) && nonIncreasing (b :: rest)

/-- The progress classification as the (amended) spec words it:
`insufficient_data` below two attempts; over the last up-to-three
attempts, `improving` when all carry test results and the passed-counts
are non-decreasing, `regressing` when all carry test results and the
passed-counts are non-increasing; otherwise `mixed` when some attempt
failed without test results (a pure execution fault) while another is a
failure carrying test results, and `stable` in all remaining cases. -/
def progressSpecClassification (m : ShortTermMemory) : List Char :=
  if m.attempts.length < 2 then "insufficient_data".toList
  else
    let recent :=
      if 3 ≤ m.attempts.length then m.attempts.drop (m.attempts.length - 3)
      else m.attempts
    if recent.all (fun a => a.test_results.isSome)
        && nonDecreasing (recent.map passedCount) then "improving".toList
    else if recent.all (fun a => a.test_results.isSome)
        && nonIncreasing (recent.map passedCount) then "regressing".toList
    else if (recent.any fun a => !a.test_results.isSome && !a.success)
        && (recent.any fun a => a.test_results.isSome && !a.success) then
      "mixed".toList
    else "stable".toList

/-! ## Serialization (`ShortTermMemory.to_json` / `from_json`)

`json.dumps` / `json.loads` belong to the standard library, an external
collaborator; they are modelled as the identity bridge on JSON value
trees, so serialization is the map from attempts into JSON values and
restoration is the map back (`Attempt(**item)` with `__post_init__`). -/

/-- JSON value trees. -/
inductive Json where
  | null : Json
  | bool (b : Bool) : Json
  | num (n : Int) : Json
  | str (s : List Char) : Json
  | arr (xs : List Json) : Json
  | obj (fields : List (List Char × Json)) : Json

/-- Key lookup in a JSON object, first binding wins. -/
def lookupField : List (List Char × Json) → List Char → Option Json
  | [], _ => none
  | (k, v) :: rest, key => if k = key then some v else lookupField rest key

/-- One failures entry as a JSON object. -/
def failureToJson (f : FailureInfo) : Json :=
  .obj [("test_name".toList, .str f.test_name), ("message".toList, .str f.message)]

/-- The `test_results` dict as a JSON object. -/
def summaryToJson (tr : TestResultsSummary) : Json :=
  .obj [("total_tests".toList, .num tr.total_tests),
        ("passed".toList, .num tr.passed),
        ("failed".toList, .num tr.failed),
        ("failures".toList, .arr (tr.failures.map failureToJson))]

/-- Model of `dataclasses.asdict` on an `Attempt`. -/
def attemptToJson (a : Attempt) : Json :=
  .obj [("iteration".toList, .num a.iteration),
        ("code".toList, .str a.code),
        ("success".toList, .bool a.success),
        ("output".toList, .str a.output),
        ("error".toList, .str a.error),
        ("test_results".toList,
          match a.test_results with
          | some tr => summaryToJson tr
          | none => .null),
        ("timestamp".toList, .str a.timestamp)]

/-- Model of `ShortTermMemory.to_json`: the serialized form of the attempt list. -/
def ShortTermMemory.to_json (m : ShortTermMemory) : Json :=
  .arr (m.attempts.map attemptToJson)

/-- Reading one failures entry back. -/
def jsonToFailure : Json → Option FailureInfo
  | .obj fs =>
    match lookupField fs "test_name".toList, lookupField fs "message".toList with
    | some (.str n), some (.str msg) => some ⟨n, msg⟩
    | _, _ => none
  | _ => none

/-- Reading a list of failures entries back. -/
def jsonListToFailures : List Json → Option (List FailureInfo)
  | [] => some []
  | j :: js =>
    match jsonToFailure j, jsonListToFailures js with
    | some f, some fs => some (f :: fs)
    | _, _ => none

/-- Reading a `test_results` dict back. -/
def jsonToSummary : Json → Option TestResultsSummary
  | .obj fs =>
    match lookupField fs "total_tests".toList, lookupField fs "passed".toList,
          lookupField fs "failed".toList, lookupField fs "failures".toList with
    | some (.num t), some (.num p), some (.num f), some (.arr js) =>
      match jsonListToFailures js with
      | some fails => some ⟨t, p, f, fails⟩
      | none => none
    | _, _, _, _ => none
  | _ => none

/-- Model of `Attempt(**item)` on a decoded JSON object, `__post_init__` included. -/
def jsonToAttempt (now : List Char) : Json → Option Attempt
  | .obj fs =>
    match lookupField fs "iteration".toList, lookupField fs "code".toList,
          lookupField fs "success".toList, lookupField fs "output".toList,
          lookupField fs "error".toList, lookupField fs "timestamp".toList with
    | some (.num it), some (.str c), some (.bool s), some (.str o),
        some (.str e), some (.str ts) =>
      match
        (match lookupField fs "test_results".toList with
         | some .null => some none
         | some j =>
           match jsonToSummary j with
           | some tr => some (some tr)
           | none => none
         | none => some none) with
      | some tr =>
        some (applyPostInit now
          { iteration := it, code := c, success := s, output := o, error := e,
            test_results := tr, timestamp := ts })
      | none => none
    | _, _, _, _, _, _ => none
  | _ => none

/-- The list comprehension `[Attempt(**item) for item in data]`. -/
def jsonListToAttempts (now : List Char) : List Json → Option (List Attempt)
  | [] => some []
  | j :: js =>
    match jsonToAttempt now j, jsonListToAttempts now js with
    | some a, some rest => some (a :: rest)
    | _, _ => none

/-- Model of `ShortTermMemory.from_json`: replace the attempt list by the decoded
one (the capacity is untouched). -/
def ShortTermMemory.from_json (m : ShortTermMemory) (now : List Char) (j : Json) :
    Option ShortTermMemory :=
  match j with
  | .arr items =>
    match jsonListToAttempts now items with
    | some atts => some { m with attempts := atts }
    | none => none
  | _ => none

/-! ## Test harness (`test_runner.run_tests`)

`exec(code, namespace)` and the `unittest` machinery are dynamic; their
result is modelled as an input: either the evaluation faults (with the
fault's type name, message and traceback), or it yields the discovered
test-case classes, each a list of test methods with their individual
outcome (pass, assertion failure with traceback, or unexpected error
with traceback). -/

/-- Outcome of one test method under `unittest`. -/
inductive TestOutcome where
  | pass : TestOutcome
  | failure (tb : List Char) : TestOutcome
  | error (tb : List Char) : TestOutcome
deriving DecidableEq

/-- One test method: its printed name and its outcome. -/
structure TestCaseRun where
  name : List Char
  outcome : TestOutcome
deriving DecidableEq

/-- Outcome of evaluating the candidate code in the harness. -/
inductive ExecOutcome where
  | fault (typeName : List Char) (msg : List Char) (tb : List Char) : ExecOutcome
  | ok (classes : List (List TestCaseRun)) : ExecOutcome

def TestOutcome.isPass : TestOutcome → Bool
  | .pass => true
  | _ => false

def TestOutcome.isFailure : TestOutcome → Bool
  | .failure _ => true
  | _ => false

def TestOutcome.isError : TestOutcome → Bool
  | .error _ => true
  | _ => false

/-- One entry of `TestResult.failures`:
`{test_name, error_type, message, traceback}`. -/
structure TRFailure where
  test_name : List Char
  error_type : List Char
  message : List Char
  traceback : List Char
deriving DecidableEq

/-- Model of `test_runner.TestResult`. -/
structure TestResult where
  total_tests : Int
  passed : Int
  failed : Int
  errors : Int
  failures : List TRFailure
  success : Bool
deriving DecidableEq

/-- Message of an assertion failure:
`traceback.split('\n')[-2] if '\n' in traceback else traceback`. -/
def failureMessage (tb : List Char) : List Char :=
  if tb.contains '\n' then
    let ls := splitLines tb
    ls.getD (ls.length - 2) []
  else tb

/-- Message of an unexpected error:
`traceback.split('\n')[-1] if '\n' in traceback else traceback`. -/
def errorMessage (tb : List Char) : List Char :=
  if tb.contains '\n' then
    let ls := splitLines tb
    ls.getD (ls.length - 1) []
  else tb

/-- Error kind of an unexpected error: last line of the stripped
traceback, up to the first colon (`'Error'` if there were no lines). -/
def errorTypeOf (tb : List Char) : List Char :=
  let ls := splitLines (pyStrip tb)
  match ls.getLast? with
  | some lastLn => lastLn.takeWhile (fun c => c != ':')
  | none => "Error".toList

/-- The failures entry produced for a test with an assertion failure. -/
def failureEntry (t : TestCaseRun) : Option TRFailure :=
  match t.outcome with
  | .failure tb => some ⟨t.name, "AssertionError".toList, failureMessage tb, tb⟩
  | _ => none

/-- The failures entry produced for a test with an unexpected error. -/
def errorEntry (t : TestCaseRun) : Option TRFailure :=
  match t.outcome with
  | .error tb => some ⟨t.name, errorTypeOf tb, errorMessage tb, tb⟩
  | _ => none

/-- Model of `test_runner.run_tests`, as a function of the evaluation outcome.
All faults are data; the function is total, so the harness never
propagates a fault to its caller. -/
def run_tests (outcome : ExecOutcome) : TestResult :=
  match outcome with
  | .fault typeName msg tb =>
    { total_tests := 0, passed := 0, failed := 0, errors := 1,
      failures := [⟨"code_execution".toList, typeName, msg, tb⟩],
      success := false }
  | .ok classes =>
    if classes = [] then
      { total_tests := 0, passed := 0, failed := 0, errors := 1,
        failures := [⟨"code_structure".toList, "NoTestsFound".toList,
                      "No unittest.TestCase class found in code".toList, []⟩],
        success := false }
    else
      let tests := classes.flatten
      let failureEntries := tests.filterMap failureEntry
      let errorEntries := tests.filterMap errorEntry
      let failedN : Int := failureEntries.length
      let errorsN : Int := errorEntries.length
      { total_tests := tests.length,
        passed := (tests.length : Int) - failedN - errorsN,
        failed := failedN,
        errors := errorsN,
        failures := failureEntries ++ errorEntries,
        success := failureEntries.length = 0 ∧ errorEntries.length = 0 }

/-! ## Sandboxed executor (`executor.execute_code`)

The child process and the wall clock are external; the subprocess call
is modelled by its outcome (wall-clock expiry, some other launcher
exception, or completion with a return code and captured streams), the
measured elapsed time by an explicit nonnegative rational, and the
embedded `run_tests` call by its `ExecOutcome` input. -/

/-- Model of `executor.ExecutionResult`. -/
structure ExecutionResult where
  success : Bool
  output : List Char
  error : List Char
  execution_time : ℚ
deriving DecidableEq

/-- Outcome of the `subprocess.run` call. -/
inductive SubprocessOutcome where
  | timedOut : SubprocessOutcome
  | raised (msg : List Char) : SubprocessOutcome
  | completed (returncode : Int) (stdout : List Char) (stderr : List Char) : SubprocessOutcome

/-- Rendering of a failing test inside the detailed feedback block. -/
def failureDetail (f : TRFailure) : List Char :=
  "❌ ".toList ++ f.test_name ++ "\n   ".toList ++ f.message

/-- Model of `executor.execute_code`, as a function of the code text, the timeout,
the subprocess outcome, the measured elapsed time and the harness
evaluation outcome. -/
def execute_code (code : List Char) (timeout : Nat) (sub : SubprocessOutcome)
    (elapsed : ℚ) (testExec : ExecOutcome) : ExecutionResult :=
  match sub with
  | .timedOut =>
    { success := false, output := [],
      error := "Execution timed out after ".toList ++ (toString timeout).toList
        ++ " seconds".toList,
      execution_time := (timeout : ℚ) }
  | .raised msg =>
    { success := false, output := [],
      error := "Execution failed: ".toList ++ msg,
      execution_time := elapsed }
  | .completed rc out err =>
    let code_has_tests := hasSub "unittest.TestCase".toList code
    if code_has_tests ∧ rc = 0 then
      let tr := run_tests testExec
      if tr.success then
        { success := true,
          output := "✅ All tests passed! (".toList ++ (toString tr.passed).toList
            ++ "/".toList ++ (toString tr.total_tests).toList ++ ")\n".toList
            ++ pyStrip out,
          error := pyStrip err,
          execution_time := elapsed }
      else
        { success := false, output := pyStrip out,
          error := "Tests failed: ".toList ++ (toString tr.passed).toList
            ++ "/".toList ++ (toString tr.total_tests).toList
            ++ " passed\n\n".toList
            ++ List.intercalate "\n\n".toList (tr.failures.map failureDetail),
          execution_time := elapsed }
    else if rc = -9 ∨ rc = 137 then
      { success := false, output := pyStrip out,
        error := "Process killed by system - likely exceeded CPU or memory limit".toList,
        execution_time := elapsed }
    else if rc = 158 ∨ hasSub "CPU time limit exceeded".toList err then
      { success := false, output := pyStrip out,
        error := "CPU time limit exceeded (5 seconds)".toList,
        execution_time := elapsed }
    else if rc = 153 ∨ hasSub "File size limit exceeded".toList err then
      { success := false, output := pyStrip out,
        error := "File size limit exceeded (10MB per file)".toList,
        execution_time := elapsed }
    else if rc = 0 then
      { success := true, output := pyStrip out, error := pyStrip err,
        execution_time := elapsed }
    else
      { success := false, output := pyStrip out,
        error :=
          if pyStrip err = [] then
            "Process exited with code ".toList ++ (toString rc).toList
          else pyStrip err,
        execution_time := elapsed }

/-! ## Aliasing model for the read accessors (C10)

Python lists are heap references; `self.attempts.copy()` and slicing
allocate fresh lists.  A small heap of attempt lists makes the
freshness observable: references are allocation indices, the memory
object holds a reference to its attempt list, and the accessors
allocate a new reference for their return value. -/

/-- A heap of attempt lists: `size` references are live, `data` gives the
list stored at each. -/
structure Heap where
  size : Nat
  data : Nat → List Attempt

/-- Allocate a fresh list on the heap, returning its reference. -/
def Heap.alloc (h : Heap) (xs : List Attempt) : Nat × Heap :=
  (h.size,
   { size := h.size + 1,
     data := fun i => if i = h.size then xs else h.data i })

/-- In-place mutation of the list stored at a reference. -/
def Heap.write (h : Heap) (r : Nat) (xs : List Attempt) : Heap :=
  { h with data := fun i => if i = r then xs else h.data i }

/-- A `ShortTermMemory` object living on the heap: its capacity and the
reference to its attempt list. -/
structure MemObj where
  max_size : Nat
  attemptsRef : Nat

/-- Model of `get_all` on the heap: allocate a copy of the stored list. -/
def get_all_heap (m : MemObj) (h : Heap) : Nat × Heap :=
  h.alloc (h.data m.attemptsRef)

/-- Model of `get_recent` on the heap: allocate the slice `attempts[-n:]` (or a
copy of the whole list when `n` exceeds the stored length). -/
def get_recent_heap (m : MemObj) (n : Nat) (h : Heap) : Nat × Heap :=
  let xs := h.data m.attemptsRef
  if n ≤ xs.length then h.alloc (sliceLast xs n) else h.alloc xs

/-! ## Concrete fixtures used by witnesses and counterexamples -/

/-- A failing attempt with error text `err1`. -/
def failedAttempt1 : Attempt :=
  { iteration := 1, code := "x = 1".toList, success := false, output := [],
    error := "err1".toList, test_results := none, timestamp := "t1".toList }

/-- A second failing attempt with the same first error line. -/
def failedAttempt2 : Attempt :=
  { iteration := 2, code := "x = 2".toList, success := false, output := [],
    error := "err1".toList, test_results := none, timestamp := "t2".toList }

/-- A successful attempt. -/
def successAttempt : Attempt :=
  { iteration := 3, code := "x = 3".toList, success := true,
    output := "ok".toList, error := [], test_results := none,
    timestamp := "t3".toList }

/-- Memory of capacity 2 after two failing attempts with identical error. -/
def memTwoFails : ShortTermMemory :=
  ((ShortTermMemory.init 2).add failedAttempt1).add failedAttempt2

/-- The same memory after a further successful attempt. -/
def memThenSuccess : ShortTermMemory :=
  memTwoFails.add successAttempt

/-- A failing attempt that recorded one passing sub-test. -/
def somePassAttempt : Attempt :=
  { iteration := 4, code := [], success := false, output := [],
    error := "fail".toList,
    test_results := some { total_tests := 2, passed := 1, failed := 1,
                           failures := [⟨"test_a".toList, "boom".toList⟩] },
    timestamp := "t4".toList }

/-- Three consecutive failed attempts with zero passing sub-tests. -/
def memNoProgress : ShortTermMemory :=
  { max_size := 5,
    attempts := [failedAttempt1, failedAttempt2,
                 { iteration := 3, code := [], success := false, output := [],
                   error := "err2".toList,
                   test_results := some { total_tests := 2, passed := 0, failed := 2,
                                          failures := [] },
                   timestamp := "t5".toList }] }

/-- The same three attempts with the middle one recording a passing
sub-test. -/
def memSomeProgress : ShortTermMemory :=
  { max_size := 5,
    attempts := [failedAttempt1, somePassAttempt,
                 { iteration := 3, code := [], success := false, output := [],
                   error := "err2".toList,
                   test_results := some { total_tests := 2, passed := 0, failed := 2,
                                          failures := [] },
                   timestamp := "t5".toList }] }

/-- A successful attempt that carries no test results, next to a failed
attempt that does: the progress-classification counterexample. -/
def memMixedCounterexample : ShortTermMemory :=
  { max_size := 5,
    attempts := [successAttempt, somePassAttempt] }

/-- A heap holding one memory object whose list has a single attempt. -/
def demoHeap : Heap :=
  { size := 1, data := fun i => if i = 0 then [successAttempt] else [] }

/-- The memory object of `demoHeap`. -/
def demoMem : MemObj := { max_size := 5, attemptsRef := 0 }

/-! ## Helper lemmas -/

/-- Lemma: `find?` returns the element at the first index whose predicate
holds. -/
theorem find?_eq_of_first {α : Type} (p : α → Bool) (l : List α) (i : Nat)
    (hi : i < l.length) (hp : p (l.get ⟨i, hi⟩) = true)
    (hj : ∀ j (hji : j < i), p (l.get ⟨j, lt_trans hji hi⟩) = false) :
    l.find? p = some (l.get ⟨i, hi⟩) := by
  induction l generalizing i with
  | nil => simp at hi
  | cons a as ih =>
    cases i with
    | zero =>
      simp only [List.get] at hp
      simp [List.find?, hp]
    | succ n =>
      have ha : p a = false := hj 0 (Nat.succ_pos n)
      simp only [List.get] at hp ⊢
      rw [List.find?_cons, ha]
      exact ih n (Nat.lt_of_succ_lt_succ hi) hp
        (fun j hji => hj (j + 1) (Nat.succ_lt_succ hji))

/-- Closed form for a sequence of `add` calls on a fresh memory, capacity
positive: the attempts are the suffix of the added list that fits. -/
theorem addAll_init_eq (msz : Nat) (hm : 0 < msz) (l : List Attempt) :
    addAll (ShortTermMemory.init msz) l
      = { max_size := msz, attempts := l.drop (l.length - msz) } := by
  induction l using List.reverseRecOn with
  | nil => simp [addAll, ShortTermMemory.init]
  | append_singleton xs a ih =>
    have hstep : addAll (ShortTermMemory.init msz) (xs ++ [a])
        = (addAll (ShortTermMemory.init msz) xs).add a := by
      simp [addAll, List.foldl_append]
    rw [hstep, ih]
    unfold ShortTermMemory.add
    by_cases hlen : xs.length < msz
    · have h0 : xs.length - msz = 0 := by omega
      have h1 : (xs ++ [a]).length - msz = 0 := by simp; omega
      rw [h0, List.drop_zero, h1, List.drop_zero, if_neg (by simp; omega)]
    · have hge : msz ≤ xs.length := Nat.le_of_not_lt hlen
      have hdlen : (xs.drop (xs.length - msz)).length = msz := by
        rw [List.length_drop]; omega
      have hcond : msz < (xs.drop (xs.length - msz) ++ [a]).length := by
        simp [hdlen]
      simp only [if_pos hcond, ShortTermMemory.mk.injEq, true_and]
      have h1 : (xs.drop (xs.length - msz) ++ [a]).drop 1
          = (xs.drop (xs.length - msz)).drop 1 ++ [a] := by
        refine List.drop_append_of_le_length ?_
        omega
      rw [h1, List.drop_drop]
      have h2 : (xs ++ [a]).length - msz = xs.length - msz + 1 := by
        simp; omega
      rw [h2]
      refine (List.drop_append_of_le_length ?_).symm
      omega

theorem nonDecreasing_iff_sorted (l : List Int) :
    nonDecreasing l = true ↔ List.Sorted (· ≤ ·) l := by
  induction l with
  | nil => simp [nonDecreasing]
  | cons a tail ih =>
    cases tail with
    | nil => simp [nonDecreasing]
    | cons b rest =>
      rw [List.sorted_cons_cons, ← ih]
      simp [nonDecreasing]

theorem nonIncreasing_iff_sorted (l : List Int) :
    nonIncreasing l = true ↔ List.Sorted (fun x y => y ≤ x) l := by
  induction l with
  | nil => simp [nonIncreasing]
  | cons a tail ih =>
    cases tail with
    | nil => simp [nonIncreasing]
    | cons b rest =>
      rw [List.sorted_cons_cons, ← ih]
      simp [nonIncreasing]

theorem eq_insertionSort_iff (l : List Int) :
    l = List.insertionSort (· ≤ ·) l ↔ List.Sorted (· ≤ ·) l := by
  constructor
  · intro h
    rw [h]
    exact List.sorted_insertionSort _ l
  · intro hs
    exact hs.insertionSort_eq.symm

theorem eq_insertionSort_reverse_iff (l : List Int) :
    l = (List.insertionSort (· ≤ ·) l).reverse ↔ List.Sorted (fun x y => y ≤ x) l := by
  constructor
  · intro h
    have hrev : l.reverse = List.insertionSort (· ≤ ·) l := by
      have h2 := congrArg List.reverse h
      simpa using h2
    have hsorted : List.Sorted (· ≤ ·) l.reverse := by
      rw [hrev]; exact List.sorted_insertionSort _ l
    rw [List.Sorted, ← List.pairwise_reverse]
    exact hsorted
  · intro hs
    have hsorted : List.Sorted (· ≤ ·) l.reverse := by
      rw [List.Sorted, List.pairwise_reverse]
      exact hs
    have hperm : List.Perm (List.insertionSort (· ≤ ·) l) l.reverse :=
      (List.perm_insertionSort _ l).trans (List.reverse_perm l).symm
    have heq : List.insertionSort (· ≤ ·) l = l.reverse :=
      List.eq_of_perm_of_sorted hperm (List.sorted_insertionSort _ l) hsorted
    rw [heq, List.reverse_reverse]

theorem jsonListToFailures_roundtrip (fs : List FailureInfo) :
    jsonListToFailures (fs.map failureToJson) = some fs := by
  induction fs with
  | nil => rfl
  | cons f rest ih =>
    show (match jsonToFailure (failureToJson f), jsonListToFailures (rest.map failureToJson) with
          | some g, some gs => some (g :: gs)
          | _, _ => none) = some (f :: rest)
    rw [ih]
    exact rfl

theorem jsonToSummary_roundtrip (tr : TestResultsSummary) :
    jsonToSummary (summaryToJson tr) = some tr := by
  obtain ⟨t, p, f, fails⟩ := tr
  show (match jsonListToFailures (fails.map failureToJson) with
        | some fl => some (⟨t, p, f, fl⟩ : TestResultsSummary)
        | none => none) = some (⟨t, p, f, fails⟩ : TestResultsSummary)
  rw [jsonListToFailures_roundtrip]

theorem jsonToAttempt_roundtrip (now : List Char) (a : Attempt) :
    jsonToAttempt now (attemptToJson a) = some (applyPostInit now a) := by
  obtain ⟨it, c, s, o, e, tr, ts⟩ := a
  cases tr with
  | none => rfl
  | some trv =>
    obtain ⟨t, p, f, fails⟩ := trv
    show (match
            (match
              (match jsonListToFailures (fails.map failureToJson) with
               | some fl => some (⟨t, p, f, fl⟩ : TestResultsSummary)
               | none => none) with
             | some trx => some (some trx)
             | none => none) with
          | some trx =>
            some (applyPostInit now
              ⟨it, c, s, o, e, trx, ts⟩)
          | none => none)
        = some (applyPostInit now ⟨it, c, s, o, e, some ⟨t, p, f, fails⟩, ts⟩)
    rw [jsonListToFailures_roundtrip]

theorem jsonListToAttempts_roundtrip (now : List Char) (l : List Attempt) :
    jsonListToAttempts now (l.map attemptToJson)
      = some (l.map (applyPostInit now)) := by
  induction l with
  | nil => rfl
  | cons a rest ih =>
    simp only [List.map_cons, jsonListToAttempts]
    rw [jsonToAttempt_roundtrip, ih]

theorem applyPostInit_of_ne (now : List Char) (a : Attempt)
    (h : a.timestamp ≠ []) : applyPostInit now a = a := by
  simp [applyPostInit, h]

/-- Exactly one of the three test outcomes holds for each test, so the
failure count, the error count and the pass count partition the tests. -/
theorem outcome_partition (tests : List TestCaseRun) :
    (tests.filterMap failureEntry).length + (tests.filterMap errorEntry).length
      + tests.countP (fun t => t.outcome.isPass) = tests.length := by
  induction tests with
  | nil => simp
  | cons t ts ih =>
    rcases ht : t.outcome with _ | tb | tb
    · have h1 : failureEntry t = none := by simp [failureEntry, ht]
      have h2 : errorEntry t = none := by simp [errorEntry, ht]
      have h3 : (fun tc => tc.outcome.isPass) t = true := by
        simp [TestOutcome.isPass, ht]
      simp only [List.filterMap_cons, h1, h2, List.countP_cons, List.length_cons]
      rw [if_pos h3]
      omega
    · have h1 : failureEntry t
          = some ⟨t.name, "AssertionError".toList, failureMessage tb, tb⟩ := by
        simp [failureEntry, ht]
      have h2 : errorEntry t = none := by simp [errorEntry, ht]
      have h3 : ¬ ((fun tc => tc.outcome.isPass) t = true) := by
        simp [TestOutcome.isPass, ht]
      simp only [List.filterMap_cons, h1, h2, List.countP_cons, List.length_cons]
      rw [if_neg h3]
      omega
    · have h1 : failureEntry t = none := by simp [failureEntry, ht]
      have h2 : errorEntry t = some ⟨t.name, errorTypeOf tb, errorMessage tb, tb⟩ := by
        simp [errorEntry, ht]
      have h3 : ¬ ((fun tc => tc.outcome.isPass) t = true) := by
        simp [TestOutcome.isPass, ht]
      simp only [List.filterMap_cons, h1, h2, List.countP_cons, List.length_cons]
      rw [if_neg h3]
      omega

/-- Core of the `same_error` check on the two inspected attempts. -/
theorem same_error_core (a b : Attempt) :
    ((if !a.success && !b.success then
        firstLine a.error == firstLine b.error
      else false) = true)
      ↔ (a.success = false ∧ b.success = false ∧
          firstLine a.error = firstLine b.error) := by
  cases hsa : a.success <;> cases hsb : b.success <;> simp [hsa, hsb]

/-- Core of the `no_progress` check on one inspected attempt. -/
theorem no_progress_core (a : Attempt) :
    ((!a.success &&
      !(match a.test_results with
        | some tr => decide (0 < tr.passed)
        | none => false)) = true)
      ↔ (a.success = false ∧
          ∀ tr, a.test_results = some tr → ¬ 0 < tr.passed) := by
  cases htr : a.test_results <;> cases hsa : a.success <;> simp [htr, hsa]

/-- Lemma: `__post_init__` is the identity on a list of attempts with nonempty
timestamps. -/
theorem map_applyPostInit_eq (now : List Char) (l : List Attempt)
    (h : ∀ a ∈ l, a.timestamp ≠ []) :
    l.map (applyPostInit now) = l := by
  induction l with
  | nil => rfl
  | cons a rest ih =>
    rw [List.map_cons, applyPostInit_of_ne now a (h a (by simp)),
      ih (fun x hx => h x (by simp [hx]))]

/-! ## Claim theorems -/

/-- C1: the safety scanner is a pure function of the code text; it
returns safe exactly when no blocklist pattern occurs as a substring of
the text, and when the first matching pattern of the ordered blocklist
is at position `i` it returns unsafe together with the message naming
that pattern and its category. -/
theorem C1_safety_scanner (code : List Char) :
    ((is_code_safe code).1 = true ↔
      ∀ pr ∈ dangerous_patterns, ¬ pr.1 <:+: code) ∧
    (∀ i (hi : i < dangerous_patterns.length),
      (dangerous_patterns.get ⟨i, hi⟩).1 <:+: code →
      (∀ j (hji : j < i),
        ¬ (dangerous_patterns.get ⟨j, lt_trans hji hi⟩).1 <:+: code) →
      is_code_safe code
        = (false, blockedMessage (dangerous_patterns.get ⟨i, hi⟩).1
            (dangerous_patterns.get ⟨i, hi⟩).2)) := by
  constructor
  · unfold is_code_safe
    rcases hfind : dangerous_patterns.find? (fun pr => hasSub pr.1 code) with _ | pr
    · rw [hfind]
      rw [List.find?_eq_none] at hfind
      constructor
      · intro _ pr hmem hinf
        exact hfind pr hmem (by rw [hasSub_iff]; exact hinf)
      · intro _
        rfl
    · rw [hfind]
      have hmem := List.mem_of_find?_eq_some hfind
      have hmatch := List.find?_some hfind
      rw [hasSub_iff] at hmatch
      obtain ⟨p1, p2⟩ := pr
      constructor
      · intro hfal
        exact absurd hfal (by simp)
      · intro hall
        exact absurd hmatch (hall (p1, p2) hmem)
  · intro i hi hinf hfirst
    have hfind : dangerous_patterns.find? (fun pr => hasSub pr.1 code)
        = some (dangerous_patterns.get ⟨i, hi⟩) := by
      refine find?_eq_of_first _ _ i hi ?_ ?_
      · rw [hasSub_iff]; exact hinf
      · intro j hji
        have hni := hfirst j hji
        rw [← hasSub_iff] at hni
        cases h : hasSub (dangerous_patterns.get ⟨j, lt_trans hji hi⟩).1 code with
        | false => rfl
        | true => exact absurd h hni
    unfold is_code_safe
    rw [hfind]

/-- C1 witness: code consisting of the single blocklisted token `rmdir`
(pattern index 1, no earlier pattern occurring) is reported blocked with
the matching message, and a benign text passes the scanner. -/
theorem C1_safety_scanner_witness :
    is_code_safe "rmdir".toList
      = (false, blockedMessage "rmdir".toList "directory deletion".toList) :=
  (C1_safety_scanner "rmdir".toList).2 1 (by decide)
    ((hasSub_iff _ _).mp (by decide))
    (by
      intro j hji
      have hj0 : j = 0 := by omega
      subst hj0
      intro hcon
      have h2 := (hasSub_iff "import shutil".toList "rmdir".toList).mpr hcon
      exact absurd h2 (by decide))

/-- C2: starting from a fresh memory of positive capacity, any sequence
of `add` calls keeps the stored length within the capacity, and
`max_size + 1` adds retain exactly the `max_size` most recent attempts
in insertion order, the single oldest entry evicted. -/
theorem C2_memory_bound (msz : Nat) (hm : 0 < msz) (l : List Attempt) :
    (addAll (ShortTermMemory.init msz) l).attempts.length ≤ msz ∧
    (l.length = msz + 1 →
      (addAll (ShortTermMemory.init msz) l).attempts = l.drop 1) := by
  rw [addAll_init_eq msz hm l]
  constructor
  · simp only [List.length_drop]
    omega
  · intro hlen
    rw [hlen]
    norm_num

/-- C2 witness: capacity 1, two adds keep only the second attempt. -/
theorem C2_memory_bound_witness :
    (addAll (ShortTermMemory.init 1) [failedAttempt1, failedAttempt2]).attempts
      = [failedAttempt2] :=
  (C2_memory_bound 1 (by decide) [failedAttempt1, failedAttempt2]).2 (by decide)

/-- C3: the harness is a total function of the evaluation outcome — a
fault never propagates.  When the code evaluation faults before any
test runs it reports `total_tests = 0`, `success = false` and exactly
one synthetic failures entry whose kind is the fault's type name; when
no test-case class is discovered it reports `total_tests = 0`,
`success = false` and exactly one synthetic entry of kind
`NoTestsFound`. -/
theorem C3_harness_never_propagates :
    (∀ t msg tb, run_tests (.fault t msg tb)
        = { total_tests := 0, passed := 0, failed := 0, errors := 1,
            failures := [⟨"code_execution".toList, t, msg, tb⟩],
            success := false }) ∧
    run_tests (.ok [])
      = { total_tests := 0, passed := 0, failed := 0, errors := 1,
          failures := [⟨"code_structure".toList, "NoTestsFound".toList,
                        "No unittest.TestCase class found in code".toList, []⟩],
          success := false } :=
  ⟨fun _ _ _ => rfl, rfl⟩

/-- C4: for a real run (at least one discovered test-case class, code
loaded without fault) the counts reconcile: `passed + failed + errors`
equals `total_tests`, `passed` is `total_tests - failed - errors` and is
the number of passing tests (hence nonnegative), and the failures list
has exactly `failed + errors` entries. -/
theorem C4_counts_reconcile (classes : List (List TestCaseRun))
    (h : classes ≠ []) :
    (run_tests (.ok classes)).passed + (run_tests (.ok classes)).failed
        + (run_tests (.ok classes)).errors
      = (run_tests (.ok classes)).total_tests ∧
    (run_tests (.ok classes)).passed
      = (run_tests (.ok classes)).total_tests - (run_tests (.ok classes)).failed
        - (run_tests (.ok classes)).errors ∧
    ((run_tests (.ok classes)).failures.length : Int)
      = (run_tests (.ok classes)).failed + (run_tests (.ok classes)).errors ∧
    (run_tests (.ok classes)).passed
      = (classes.flatten.countP (fun t => t.outcome.isPass) : Int) ∧
    0 ≤ (run_tests (.ok classes)).passed := by
  have hpart := outcome_partition classes.flatten
  simp only [run_tests, if_neg h]
  refine ⟨?_, ?_, ?_, ?_, ?_⟩
  · omega
  · trivial
  · push_cast [List.length_append]
    ring
  · omega
  · omega

/-- C4 witness: one class with one passing and one failing test. -/
theorem C4_counts_reconcile_witness :
    (run_tests (.ok [[⟨"test_ok".toList, .pass⟩,
                      ⟨"test_bad".toList, .failure "AssertionError: no".toList⟩]])).passed
        + (run_tests (.ok [[⟨"test_ok".toList, .pass⟩,
                      ⟨"test_bad".toList, .failure "AssertionError: no".toList⟩]])).failed
        + (run_tests (.ok [[⟨"test_ok".toList, .pass⟩,
                      ⟨"test_bad".toList, .failure "AssertionError: no".toList⟩]])).errors
      = (run_tests (.ok [[⟨"test_ok".toList, .pass⟩,
                      ⟨"test_bad".toList, .failure "AssertionError: no".toList⟩]])).total_tests :=
  (C4_counts_reconcile [[⟨"test_ok".toList, .pass⟩,
    ⟨"test_bad".toList, .failure "AssertionError: no".toList⟩]] (by decide)).1

/-- C5: on wall-clock expiry the executor reports failure, pins the
execution time to the timeout value (hence `execution_time ≥ T`), and
the error text denotes a timeout. -/
theorem C5_timeout (code : List Char) (timeout : Nat) (elapsed : ℚ)
    (te : ExecOutcome) :
    (execute_code code timeout .timedOut elapsed te).success = false ∧
    (execute_code code timeout .timedOut elapsed te).execution_time
      = (timeout : ℚ) ∧
    (timeout : ℚ) ≤ (execute_code code timeout .timedOut elapsed te).execution_time ∧
    (execute_code code timeout .timedOut elapsed te).error
      = "Execution timed out after ".toList ++ (toString timeout).toList
        ++ " seconds".toList ∧
    hasSub "timed out".toList (execute_code code timeout .timedOut elapsed te).error
      = true := by
  refine ⟨rfl, rfl, le_refl _, rfl, ?_⟩
  show hasSub "timed out".toList
    (("Execution timed out after ".toList ++ (toString timeout).toList)
      ++ " seconds".toList) = true
  exact hasSub_append_left _ (hasSub_append_left _ (by decide))

/-- C6: `has_pattern same_error` holds exactly when at least two
attempts are stored, the last two both failed and the first lines of
their error texts coincide; in particular it holds after two failing
attempts with the same first error line and is dropped again by a
subsequent successful attempt. -/
theorem C6_same_error :
    (∀ m : ShortTermMemory,
      (m.has_pattern "same_error" = true ↔
        2 ≤ m.attempts.length ∧
        ∃ a b, m.attempts.drop (m.attempts.length - 2) = [a, b] ∧
          a.success = false ∧ b.success = false ∧
          firstLine a.error = firstLine b.error)) ∧
    memTwoFails.has_pattern "same_error" = true ∧
    memThenSuccess.has_pattern "same_error" = false := by
  refine ⟨fun m => ?_, by decide, by decide⟩
  unfold ShortTermMemory.has_pattern
  by_cases h2 : 2 ≤ m.attempts.length
  · rw [if_pos ⟨rfl, h2⟩]
    have hlen : (m.attempts.drop (m.attempts.length - 2)).length = 2 := by
      rw [List.length_drop]; omega
    obtain ⟨a, b, hab⟩ := List.length_eq_two.mp hlen
    rw [hab]
    constructor
    · intro h
      have hcore : (if !a.success && !b.success then
          firstLine a.error == firstLine b.error else false) = true := h
      exact ⟨h2, a, b, rfl, (same_error_core a b).mp hcore⟩
    · rintro ⟨-, a', b', heq, hsa', hsb', herr'⟩
      obtain ⟨rfl, rfl⟩ : a = a' ∧ b = b' := by simpa using heq
      exact (same_error_core a b).mpr ⟨hsa', hsb', herr'⟩
  · rw [if_neg (by simp [h2]), if_neg (by simp [h2]), if_neg (by simp)]
    simp [h2]

/-- C7: `has_pattern no_progress` holds exactly when at least three
attempts are stored, the last three all failed, and none of them
recorded a positive passing sub-test count (an attempt without test
results counting as zero passing); in particular three zero-passing
failures trigger it, and a passing sub-test among the last three breaks
it. -/
theorem C7_no_progress :
    (∀ m : ShortTermMemory,
      (m.has_pattern "no_progress" = true ↔
        3 ≤ m.attempts.length ∧
        ∀ a ∈ m.attempts.drop (m.attempts.length - 3),
          a.success = false ∧
          ∀ tr, a.test_results = some tr → ¬ 0 < tr.passed)) ∧
    memNoProgress.has_pattern "no_progress" = true ∧
    memSomeProgress.has_pattern "no_progress" = false := by
  refine ⟨fun m => ?_, by decide, by decide⟩
  unfold ShortTermMemory.has_pattern
  rw [if_neg (by simp), if_neg (by simp)]
  by_cases h3 : 3 ≤ m.attempts.length
  · rw [if_pos ⟨rfl, h3⟩, List.all_eq_true]
    constructor
    · intro h
      exact ⟨h3, fun a ha => (no_progress_core a).mp (h a ha)⟩
    · rintro ⟨-, hall⟩
      exact fun a ha => (no_progress_core a).mpr (hall a ha)
  · rw [if_neg (by simp [h3])]
    simp [h3]

/-- C8 (amended): the progress classification computed by the code
coincides with the spec-side classification in which the `mixed` label
additionally requires the attempts lacking test results to be failures
(pure execution faults), exactly as the code's
`has_execution_error` conjunct demands. -/
theorem C8_progress_classification (m : ShortTermMemory) :
    m.calculate_progress = progressSpecClassification m := by
  unfold ShortTermMemory.calculate_progress progressSpecClassification
  by_cases hlt : m.attempts.length < 2
  · rw [if_pos hlt, if_pos hlt]
  · rw [if_neg hlt, if_neg hlt]
    set recent := (if 3 ≤ m.attempts.length then
      m.attempts.drop (m.attempts.length - 3) else m.attempts) with hrec
    by_cases hall : recent.all (fun a => a.test_results.isSome) = true
    · by_cases hnd : nonDecreasing (recent.map passedCount) = true
      · have hsorted : recent.map passedCount
            = List.insertionSort (· ≤ ·) (recent.map passedCount) :=
          (eq_insertionSort_iff _).mpr ((nonDecreasing_iff_sorted _).mp hnd)
        have hc1 : (recent.all (fun a => a.test_results.isSome)
            && nonDecreasing (recent.map passedCount)) = true := by
          simp [hall, hnd]
        rw [if_pos hall, if_pos hsorted, if_pos hc1]
      · have hsorted : ¬ recent.map passedCount
            = List.insertionSort (· ≤ ·) (recent.map passedCount) :=
          fun hcon =>
            hnd ((nonDecreasing_iff_sorted _).mpr ((eq_insertionSort_iff _).mp hcon))
        have hc1 : ¬ (recent.all (fun a => a.test_results.isSome)
            && nonDecreasing (recent.map passedCount)) = true := by
          simp [hnd]
        by_cases hni : nonIncreasing (recent.map passedCount) = true
        · have hsorted2 : recent.map passedCount
              = (List.insertionSort (· ≤ ·) (recent.map passedCount)).reverse :=
            (eq_insertionSort_reverse_iff _).mpr ((nonIncreasing_iff_sorted _).mp hni)
          have hc2 : (recent.all (fun a => a.test_results.isSome)
              && nonIncreasing (recent.map passedCount)) = true := by
            simp [hall, hni]
          rw [if_pos hall, if_neg hsorted, if_pos hsorted2, if_neg hc1, if_pos hc2]
        · have hsorted2 : ¬ recent.map passedCount
              = (List.insertionSort (· ≤ ·) (recent.map passedCount)).reverse :=
            fun hcon =>
              hni ((nonIncreasing_iff_sorted _).mpr
                ((eq_insertionSort_reverse_iff _).mp hcon))
          have hc2 : ¬ (recent.all (fun a => a.test_results.isSome)
              && nonIncreasing (recent.map passedCount)) = true := by
            simp [hni]
          rw [if_pos hall, if_neg hsorted, if_neg hsorted2, if_neg hc1, if_neg hc2]
    · have hc1 : ¬ (recent.all (fun a => a.test_results.isSome)
          && nonDecreasing (recent.map passedCount)) = true := by
        simp [hall]
      have hc2 : ¬ (recent.all (fun a => a.test_results.isSome)
          && nonIncreasing (recent.map passedCount)) = true := by
        simp [hall]
      rw [if_neg hall, if_neg hc1, if_neg hc2]

/-- C8 counterexample to the claim as stated: a successful attempt
without test results next to a failed attempt carrying test-result
failures satisfies the claim's `mixed` conditions (some considered
attempt has no test results, another has a test-result-bearing
failure, not all carry results, at least two attempts), yet the code
classifies the memory as `stable`, not `mixed`. -/
theorem C8_progress_counterexample :
    2 ≤ memMixedCounterexample.attempts.length ∧
    (∃ a ∈ memMixedCounterexample.attempts, a.test_results = none) ∧
    (∃ a ∈ memMixedCounterexample.attempts,
      a.test_results ≠ none ∧ a.success = false) ∧
    ¬ (∀ a ∈ memMixedCounterexample.attempts, a.test_results.isSome = true) ∧
    memMixedCounterexample.calculate_progress ≠ "mixed".toList ∧
    memMixedCounterexample.calculate_progress = "stable".toList := by
  decide

/-- C9: serializing a memory and restoring from the serialized form
yields a memory whose ordered attempt sequence equals the original.
The hypothesis that every stored timestamp is nonempty is an invariant
of every constructed attempt: `__post_init__` replaces an empty
timestamp at creation time. -/
theorem C9_serialization_roundtrip (m target : ShortTermMemory)
    (now : List Char) (h : ∀ a ∈ m.attempts, a.timestamp ≠ []) :
    target.from_json now m.to_json
      = some { target with attempts := m.attempts } := by
  have hlist := jsonListToAttempts_roundtrip now m.attempts
  rw [map_applyPostInit_eq now m.attempts h] at hlist
  simp only [ShortTermMemory.from_json, ShortTermMemory.to_json, hlist]

/-- C9 witness: the two-failure memory round-trips into a fresh memory
of capacity 5. -/
theorem C9_serialization_roundtrip_witness :
    (ShortTermMemory.init 5).from_json "T".toList memTwoFails.to_json
      = some { max_size := 5, attempts := memTwoFails.attempts } :=
  C9_serialization_roundtrip memTwoFails (ShortTermMemory.init 5) "T".toList
    (by decide)

/-- C10 (amended): `get_all` and `get_recent` leave the stored attempt
list unchanged and return a freshly allocated list, so mutating the
returned list leaves the memory's stored attempts intact; the returned
list holds a copy of the attempts for `get_all`, and for `get_recent`
with `n ≥ 1` the last `min n length` attempts in order — for `n = 0`
Python's `[-0:]` slice yields the whole list instead of the empty
slice. -/
theorem C10_read_accessors (m : MemObj) (h : Heap) (n : Nat)
    (hv : m.attemptsRef < h.size) :
    ((get_all_heap m h).2.data m.attemptsRef = h.data m.attemptsRef) ∧
    ((get_recent_heap m n h).2.data m.attemptsRef = h.data m.attemptsRef) ∧
    ((get_all_heap m h).2.data (get_all_heap m h).1 = h.data m.attemptsRef) ∧
    (1 ≤ n → (get_recent_heap m n h).2.data (get_recent_heap m n h).1
        = (h.data m.attemptsRef).drop ((h.data m.attemptsRef).length - n)) ∧
    (∀ ys, ((get_all_heap m h).2.write (get_all_heap m h).1 ys).data m.attemptsRef
        = h.data m.attemptsRef) ∧
    (∀ ys, ((get_recent_heap m n h).2.write (get_recent_heap m n h).1 ys).data
          m.attemptsRef
        = h.data m.attemptsRef) := by
  have hne : m.attemptsRef ≠ h.size := Nat.ne_of_lt hv
  by_cases hn : n ≤ (h.data m.attemptsRef).length
  · refine ⟨?_, ?_, ?_, ?_, ?_, ?_⟩
    · simp [get_all_heap, Heap.alloc, hne]
    · simp [get_recent_heap, Heap.alloc, hn, hne]
    · simp [get_all_heap, Heap.alloc]
    · intro hn1
      have hn0 : n ≠ 0 := by omega
      simp [get_recent_heap, Heap.alloc, hn, sliceLast, hn0]
    · intro ys
      simp [get_all_heap, Heap.alloc, Heap.write, hne]
    · intro ys
      simp [get_recent_heap, Heap.alloc, Heap.write, hn, hne]
  · have h0 : (h.data m.attemptsRef).length - n = 0 := by omega
    refine ⟨?_, ?_, ?_, ?_, ?_, ?_⟩
    · simp [get_all_heap, Heap.alloc, hne]
    · simp [get_recent_heap, Heap.alloc, hn, hne]
    · simp [get_all_heap, Heap.alloc]
    · intro hn1
      simp [get_recent_heap, Heap.alloc, hn, h0]
    · intro ys
      simp [get_all_heap, Heap.alloc, Heap.write, hne]
    · intro ys
      simp [get_recent_heap, Heap.alloc, Heap.write, hn, hne]

/-- C10 witness: on the one-attempt demo heap with `n = 1`, `get_recent`
returns the last attempt and the stored list is untouched. -/
theorem C10_read_accessors_witness :
    demoMem.attemptsRef < demoHeap.size ∧
    (get_recent_heap demoMem 1 demoHeap).2.data
        (get_recent_heap demoMem 1 demoHeap).1
      = (demoHeap.data demoMem.attemptsRef).drop
          ((demoHeap.data demoMem.attemptsRef).length - 1) ∧
    (get_all_heap demoMem demoHeap).2.data demoMem.attemptsRef
      = demoHeap.data demoMem.attemptsRef :=
  ⟨by decide,
   (C10_read_accessors demoMem demoHeap 1 (by decide)).2.2.2.1 (by decide),
   (C10_read_accessors demoMem demoHeap 1 (by decide)).1⟩

/-- C10 counterexample to the claim as stated: for `n = 0` on a memory
holding one attempt, `get_recent` returns the whole stored list (length
1), not a slice of the last `min 0 1 = 0` attempts, because Python's
`attempts[-0:]` is the full-list slice. -/
theorem C10_read_accessors_counterexample :
    ((get_recent_heap demoMem 0 demoHeap).2.data
        (get_recent_heap demoMem 0 demoHeap).1).length = 1 ∧
    min 0 (demoHeap.data demoMem.attemptsRef).length = 0 := by
  constructor
  · rfl
  · rfl

end CodingAgent
